import Mathlib

/-!
Verification of the Memory Drift simulation core (src/renderer/js/game-engine.js,
src/renderer/js/utils.js, and the particle/visual-generator file src/unnamed/part_000).

Embedding conventions:
* JS numbers are modelled by `ℚ`; numeric literals are taken at face value
  (e.g. `0.3` is `3/10`).
* The transcendental primitives the code uses (`Math.sin`, `Math.cos`,
  `Math.sqrt` inside `Vector2.magnitude`, and the constant `Math.PI`) are
  modelled by an abstract parameter record `Prim`; theorems quantify over it.
  Witnesses instantiate it with `Rat.sqrt` (exact on rational squares) and
  constant trigonometric functions satisfying the needed pointwise facts.
* `Math.random()` is modelled by an explicit tape of values (`Rng`), consumed
  one value per call, threaded in the exact order the source draws them.
* Fallible operations (reading an out-of-range array index in JS yields
  `undefined` and a subsequent `TypeError`) are modelled with `Option`.
-/

/-- Abstract numeric primitives: `Math.sin`, `Math.cos`, the square root used by
`Vector2.magnitude`, and the constant `Math.PI`. -/
structure Prim where
  sin : ℚ → ℚ
  cos : ℚ → ℚ
  sqrt : ℚ → ℚ
  pi : ℚ

/-- The stream of values produced by successive `Math.random()` calls: a tape
and a cursor.  Each call returns `tape idx` and advances the cursor. -/
structure Rng where
  tape : ℕ → ℚ
  idx : ℕ

/-- One `Math.random()` call. -/
def Rng.next (r : Rng) : ℚ × Rng :=
  (r.tape r.idx, { r with idx := r.idx + 1 })

/-- Utils.random(min, max) = Math.random() * (max - min) + min. -/
def randQ (lo hi : ℚ) (r : Rng) : ℚ × Rng :=
  let (u, r') := r.next
  (u * (hi - lo) + lo, r')

/-- Utils.clamp(value, min, max) = Math.min(Math.max(value, min), max). -/
def clampQ (v lo hi : ℚ) : ℚ := min (max v lo) hi

/-- Vector2 from utils.js: a pair of rational coordinates. -/
structure Vec2 where
  x : ℚ
  y : ℚ
deriving DecidableEq

/-- Vector2.add. -/
def Vec2.add (a b : Vec2) : Vec2 := ⟨a.x + b.x, a.y + b.y⟩

/-- Vector2.subtract. -/
def Vec2.sub (a b : Vec2) : Vec2 := ⟨a.x - b.x, a.y - b.y⟩

/-- Vector2.multiply (scalar). -/
def Vec2.smul (a : Vec2) (s : ℚ) : Vec2 := ⟨a.x * s, a.y * s⟩

/-- Vector2.magnitude = Math.sqrt(x*x + y*y), with the square root supplied by
the primitive record. -/
def Vec2.mag (p : Prim) (a : Vec2) : ℚ := p.sqrt (a.x * a.x + a.y * a.y)

/-- Vector2.distance(v) = this.subtract(v).magnitude(); `Utils.distance`
computes the same value. -/
def Vec2.dist (p : Prim) (a b : Vec2) : ℚ := Vec2.mag p (Vec2.sub a b)

/-- Vector2.normalize: divide both components by the magnitude, or return the
zero vector when the magnitude is 0. -/
def Vec2.normalize (p : Prim) (a : Vec2) : Vec2 :=
  let m := Vec2.mag p a
  if m = 0 then ⟨0, 0⟩ else ⟨a.x / m, a.y / m⟩

/-- An r/g/b colour triple (JS objects `{r, g, b}`). -/
structure Color where
  r : ℚ
  g : ℚ
  b : ℚ
deriving DecidableEq

/-- A particle of the particle system (src/unnamed/part_000).  The constructor
randomness is in `emitOne` below; this structure only holds the state. -/
structure Particle where
  position : Vec2
  velocity : Vec2
  color : Color
  lifetime : ℚ
  maxLifetime : ℚ
  size : ℚ
  alpha : ℚ
deriving DecidableEq

/-- Particle.update(deltaTime): advance the position by velocity·dt, subtract
20·dt from velocity.y, multiply the velocity by 0.98, decrement the lifetime
and recompute alpha.  The JS method mutates in place and returns
`lifetime > 0`; the caller filters on that, see `psUpdate`. -/
def partUpdate (dt : ℚ) (q : Particle) : Particle :=
  let pos' := Vec2.add q.position (Vec2.smul q.velocity dt)
  let vel' := Vec2.smul ⟨q.velocity.x, q.velocity.y - 20 * dt⟩ (98/100)
  let lt' := q.lifetime - dt
  { q with position := pos', velocity := vel', lifetime := lt',
           alpha := lt' / q.maxLifetime }

/-- ParticleSystem.update(deltaTime): `particles.filter(p => p.update(dt))` —
every particle is advanced and the ones whose new lifetime is ≤ 0 are dropped
in the same tick. -/
def psUpdate (dt : ℚ) (particles : List Particle) : List Particle :=
  particles.filterMap (fun q =>
    let q' := partUpdate dt q
    if q'.lifetime > 0 then some q' else none)

/-- One iteration of the `emit` loop: positional jitter of ±10px, colour
jitter of ±20 per channel clamped to [0,255], then the `Particle` constructor
(velocity from a random angle in [0,2π) and speed in [20,80], lifetime in
[0.5,1.5], size in [2,5]).  Random draws happen in exactly the source order. -/
def emitOne (p : Prim) (x y : ℚ) (color : Color) (rng : Rng) : Particle × Rng :=
  let (jx, r1) := randQ (-10) 10 rng
  let (jy, r2) := randQ (-10) 10 r1
  let (vr, r3) := randQ (-20) 20 r2
  let (vg, r4) := randQ (-20) 20 r3
  let (vb, r5) := randQ (-20) 20 r4
  let (ang, r6) := randQ 0 (p.pi * 2) r5
  let (spd, r7) := randQ 20 80 r6
  let (lt, r8) := randQ (1/2) (3/2) r7
  let (sz, r9) := randQ 2 5 r8
  ({ position := ⟨x + jx, y + jy⟩,
     velocity := ⟨p.cos ang * spd, p.sin ang * spd⟩,
     color := ⟨clampQ (color.r + vr) 0 255, clampQ (color.g + vg) 0 255,
               clampQ (color.b + vb) 0 255⟩,
     lifetime := lt, maxLifetime := lt, size := sz, alpha := 1 }, r9)

/-- The `for (let i = 0; i < count; i++)` body of `ParticleSystem.emit`,
creating `count` particles in order. -/
def emitLoop (p : Prim) (x y : ℚ) (color : Color) : ℕ → Rng → List Particle × Rng
  | 0, rng => ([], rng)
  | n + 1, rng =>
    let (pt, r1) := emitOne p x y color rng
    let (rest, r2) := emitLoop p x y color n r1
    (pt :: rest, r2)

/-- ParticleSystem.emit(x, y, count, color): append `count` new particles,
then `if (particles.length > maxParticles) particles = particles.slice(-500)` —
keep only the most recently added 500. -/
def psEmit (p : Prim) (particles : List Particle) (x y : ℚ) (count : ℕ)
    (color : Color) (rng : Rng) : List Particle × Rng :=
  let r := emitLoop p x y color count rng
  let all := particles ++ r.1
  (if all.length > 500 then all.drop (all.length - 500) else all, r.2)

/-- A memory fragment (game-engine.js, class MemoryFragment).  The decorative
per-fragment pattern geometry (`generatePattern`) is only read by `draw` and is
omitted; all fields the simulation reads or writes are present.  `velocity`
and `mass` are assigned by the engine right after construction. -/
structure MemoryFragment where
  position : Vec2
  basePosition : Vec2
  velocity : Vec2
  mass : ℚ
  size : ℚ
  corruptionLevel : ℚ
  colorScheme : List Color
  patternSeed : ℕ
  rotation : ℚ
  rotationSpeed : ℚ
  pulsePhase : ℚ
  driftPhase : ℚ
  healRate : ℚ
  acceleratedHealRate : ℚ
deriving DecidableEq

/-- The MemoryFragment constructor: position and basePosition from (x, y),
healRate 0.01, acceleratedHealRate 0, and the four random visual properties
drawn in source order (rotation ∈ [0,2π), rotationSpeed ∈ [-0.5,0.5),
pulsePhase ∈ [0,2π), driftPhase ∈ [0,2π)). -/
def mkMemoryFragment (p : Prim) (x y size corruption : ℚ) (scheme : List Color)
    (seed : ℕ) (rng : Rng) : MemoryFragment × Rng :=
  let (rot, r1) := randQ 0 (p.pi * 2) rng
  let (rotSpeed, r2) := randQ (-(1/2)) (1/2) r1
  let (pulse, r3) := randQ 0 (p.pi * 2) r2
  let (drift, r4) := randQ 0 (p.pi * 2) r3
  ({ position := ⟨x, y⟩, basePosition := ⟨x, y⟩, velocity := ⟨0, 0⟩,
     mass := 1, size := size, corruptionLevel := corruption,
     colorScheme := scheme, patternSeed := seed,
     rotation := rot, rotationSpeed := rotSpeed, pulsePhase := pulse,
     driftPhase := drift, healRate := 1/100, acceleratedHealRate := 0 }, r4)

/-- MemoryFragment.update(deltaTime, mousePos, influenceRadius): mouse
influence, drift (position overwritten from basePosition), rotation, pulse,
base healing floored at 0, and ×0.95 decay of the accelerated heal rate. -/
def memUpdate (p : Prim) (dt : ℚ) (mousePos : Vec2) (influenceRadius : ℚ)
    (f : MemoryFragment) : MemoryFragment :=
  let distToMouse := Vec2.dist p f.position mousePos
  let mouseInfluence := max 0 (1 - distToMouse / influenceRadius)
  let driftPhase' := f.driftPhase + dt * (1/2)
  let driftX := p.sin driftPhase' * 10
  let driftY := p.cos (driftPhase' * (7/10)) * 10
  let totalHealRate := f.healRate + f.acceleratedHealRate
  let adjustedHealRate := totalHealRate * (1 + mouseInfluence * 2)
  { f with
    driftPhase := driftPhase',
    position := ⟨f.basePosition.x + driftX * (1 - mouseInfluence * (1/2)),
                 f.basePosition.y + driftY * (1 - mouseInfluence * (1/2))⟩,
    rotation := f.rotation + f.rotationSpeed * dt * (1 + mouseInfluence),
    pulsePhase := f.pulsePhase + dt * 2 * (1 + mouseInfluence),
    corruptionLevel := max 0 (f.corruptionLevel - adjustedHealRate * dt),
    acceleratedHealRate := f.acceleratedHealRate * (95/100) }

/-- MemoryFragment.accelerateHealing(amount):
`acceleratedHealRate = Math.min(0.5, acceleratedHealRate + amount)`. -/
def accelerateHealing (f : MemoryFragment) (amount : ℚ) : MemoryFragment :=
  { f with acceleratedHealRate := min (1/2) (f.acceleratedHealRate + amount) }

/-- MemoryFragment.getCurrentColor(): base colour (colorScheme[0]) desaturated
and darkened proportionally to the corruption level, channels rounded
(JS Math.round = ⌊x + 1/2⌋, matching Mathlib `round` on ℚ). -/
def getCurrentColor (f : MemoryFragment) : Color :=
  let baseColor := f.colorScheme.headD ⟨0, 0, 0⟩
  if f.corruptionLevel > 0 then
    let grayFactor := f.corruptionLevel
    let brightnessFactor := 1 - f.corruptionLevel * (7/10)
    let r := baseColor.r * brightnessFactor
    let g := baseColor.g * brightnessFactor
    let b := baseColor.b * brightnessFactor
    let gray := (r + g + b) / 3
    ⟨(round (r * (1 - grayFactor) + gray * grayFactor) : ℤ),
     (round (g * (1 - grayFactor) + gray * grayFactor) : ℤ),
     (round (b * (1 - grayFactor) + gray * grayFactor) : ℤ)⟩
  else baseColor

/-- VisualGenerator.generateCirclePattern(count, centerX, centerY, radius):
`count` points at angles (2π·i)/count on the circle of the given radius. -/
def generateCirclePattern (p : Prim) (count : ℕ) (cx cy r : ℚ) : List Vec2 :=
  (List.range count).map (fun (i : ℕ) =>
    let angle := 2 * p.pi * (i : ℚ) / (count : ℚ)
    ⟨cx + r * p.cos angle, cy + r * p.sin angle⟩)

/-- VisualGenerator.generateSpiralPattern(count, centerX, centerY): angle
(2π·i)/5, radius 50 + 25·i. -/
def generateSpiralPattern (p : Prim) (count : ℕ) (cx cy : ℚ) : List Vec2 :=
  (List.range count).map (fun (i : ℕ) =>
    let angle := 2 * p.pi * (i : ℚ) / 5
    let r := 50 + (i : ℚ) * 25
    ⟨cx + r * p.cos angle, cy + r * p.sin angle⟩)

/-- Math.ceil(Math.sqrt(count)) on a natural number, computed exactly:
`Nat.sqrt` is the floor of the square root, so the ceiling is `Nat.sqrt n`
when `n` is a perfect square and `Nat.sqrt n + 1` otherwise. -/
def ceilSqrtNat (n : ℕ) : ℕ :=
  if Nat.sqrt n * Nat.sqrt n = n then Nat.sqrt n else Nat.sqrt n + 1

/-- VisualGenerator.generateGridPattern(count, width, height):
`ceil(sqrt(count))` columns, spacing width/(gridSize+1) and
height/(gridSize+1), row = ⌊i / gridSize⌋, col = i mod gridSize. -/
def generateGridPattern (count : ℕ) (w h : ℚ) : List Vec2 :=
  let gridSize := ceilSqrtNat count
  let spacingX := w / ((gridSize : ℚ) + 1)
  let spacingY := h / ((gridSize : ℚ) + 1)
  (List.range count).map (fun i =>
    let row := i / gridSize
    let col := i % gridSize
    ⟨((col : ℚ) + 1) * spacingX, ((row : ℚ) + 1) * spacingY⟩)

/-- The do-while body of `generateConstellationPattern` for one point: sample
x and y in [margin, dim−margin), count the attempt, and loop while fewer than
50 attempts have been made and the sample is within 80px of an existing
point.  `remaining` counts the attempts still allowed after the current one
(first call: 49, since the condition re-samples while `attempts < 50`). -/
def constellAttempt (p : Prim) (prev : List Vec2) (w h : ℚ) :
    ℕ → Rng → Vec2 × Rng
  | 0, rng =>
    let r1 := randQ 100 (w - 100) rng
    let r2 := randQ 100 (h - 100) r1.2
    (⟨r1.1, r2.1⟩, r2.2)
  | m + 1, rng =>
    let r1 := randQ 100 (w - 100) rng
    let r2 := randQ 100 (h - 100) r1.2
    let close := prev.any (fun q => decide (Vec2.dist p q ⟨r1.1, r2.1⟩ < 80))
    if close then constellAttempt p prev w h m r2.2 else (⟨r1.1, r2.1⟩, r2.2)

/-- VisualGenerator.generateConstellationPattern(count, width, height):
rejection-sampled points with margin 100, ≥80px pairwise separation, at most
50 attempts per point.  It draws from the ambient `Math.random()` stream. -/
def generateConstellationPattern (p : Prim) (count : ℕ) (w h : ℚ)
    (rng : Rng) : List Vec2 × Rng :=
  (List.range count).foldl
    (fun acc _ =>
      let (pt, r') := constellAttempt p acc.1 w h 49 acc.2
      (acc.1 ++ [pt], r'))
    ([], rng)

/-- VisualGenerator.generateMandalaPattern(count, centerX, centerY): 3 rings,
`ceil(count/3)` items per ring (exact on naturals as `(count+2)/3`), ring
radius 80 + 80·ring. -/
def generateMandalaPattern (p : Prim) (count : ℕ) (cx cy : ℚ) : List Vec2 :=
  let itemsPerRing := (count + 2) / 3
  (List.range count).map (fun i =>
    let ring := i / itemsPerRing
    let r := 80 + (ring : ℚ) * 80
    let angleStep := 2 * p.pi / (itemsPerRing : ℚ)
    let angle := ((i % itemsPerRing : ℕ) : ℚ) * angleStep
    ⟨cx + r * p.cos angle, cy + r * p.sin angle⟩)

/-- The five pattern types of the level catalog. -/
inductive PatternType where
  | circle
  | spiral
  | grid
  | constellation
  | mandala
deriving DecidableEq

/-- A level definition from the static catalog in the GameEngine
constructor. -/
structure Level where
  number : ℕ
  fragmentCount : ℕ
  baseCorruption : ℚ
  patternType : PatternType
  colorScheme : List Color

/-- The five built-in levels (game-engine.js lines 26-82). -/
def levels : List Level :=
  [ { number := 1, fragmentCount := 5, baseCorruption := 8/10,
      patternType := .circle,
      colorScheme := [⟨50, 100, 200⟩, ⟨100, 150, 255⟩, ⟨150, 200, 255⟩] },
    { number := 2, fragmentCount := 8, baseCorruption := 85/100,
      patternType := .spiral,
      colorScheme := [⟨200, 50, 100⟩, ⟨255, 100, 150⟩, ⟨255, 150, 200⟩] },
    { number := 3, fragmentCount := 12, baseCorruption := 9/10,
      patternType := .grid,
      colorScheme := [⟨50, 200, 100⟩, ⟨100, 255, 150⟩, ⟨150, 255, 200⟩] },
    { number := 4, fragmentCount := 15, baseCorruption := 9/10,
      patternType := .constellation,
      colorScheme := [⟨150, 50, 200⟩, ⟨200, 100, 255⟩, ⟨225, 150, 255⟩] },
    { number := 5, fragmentCount := 20, baseCorruption := 95/100,
      patternType := .mandala,
      colorScheme := [⟨200, 150, 50⟩, ⟨255, 200, 100⟩, ⟨255, 225, 150⟩] } ]

/-- JS array indexing with an integer index: `undefined` (here `none`) for a
negative index or one past the end. -/
def jsIndex {α : Type} (xs : List α) (i : ℤ) : Option α :=
  if 0 ≤ i then xs.get? i.toNat else none

/-- A gravity well (created by `createGravityWell` with strength 500,
lifetime 3.0, radius 100). -/
structure GravityWell where
  position : Vec2
  strength : ℚ
  lifetime : ℚ
  maxLifetime : ℚ
  radius : ℚ
deriving DecidableEq

/-- A derived connection edge: `{from: i, to: j, strength}`.  `from` is a Lean
keyword, hence the primes. -/
structure Connection where
  from' : ℕ
  to' : ℕ
  strength : ℚ
deriving DecidableEq

/-- The game state enum. -/
inductive GState where
  | MENU
  | PLAYING
  | PAUSED
  | LEVEL_COMPLETE
deriving DecidableEq

/-- Events the engine emits (only those of the modelled operations). -/
inductive GEvent where
  | levelStarted (i : ℤ)
  | levelComplete (i : ℤ)
  | progressUpdate (q : ℚ)
deriving DecidableEq

/-- The GameEngine state: the fields the simulation core reads and writes.
The canvas dimensions stand in for `canvas.width` / `canvas.height`. -/
structure Engine where
  state : GState
  currentLevel : ℤ
  mousePos : Vec2
  mouseInfluenceRadius : ℚ
  particles : List Particle
  fragments : List MemoryFragment
  gravityWells : List GravityWell
  connections : List Connection
  targetPositions : List Vec2
  canvasW : ℚ
  canvasH : ℚ

/-- A fresh engine as built by the GameEngine constructor (state MENU,
level 0, mouse at the origin, influence radius 150, empty lists). -/
def mkEngine (w h : ℚ) : Engine :=
  { state := .MENU, currentLevel := 0, mousePos := ⟨0, 0⟩,
    mouseInfluenceRadius := 150, particles := [], fragments := [],
    gravityWells := [], connections := [], targetPositions := [],
    canvasW := w, canvasH := h }

/-- GameEngine.generatePatternPositions: dispatch on the pattern type.  Only
the constellation generator consumes the random stream. -/
def generatePatternPositions (p : Prim) (pt : PatternType) (count : ℕ)
    (w h : ℚ) (rng : Rng) : List Vec2 × Rng :=
  match pt with
  | .circle => (generateCirclePattern p count (w/2) (h/2) (min w h * (3/10)), rng)
  | .spiral => (generateSpiralPattern p count (w/2) (h/2), rng)
  | .grid => (generateGridPattern count w h, rng)
  | .constellation => generateConstellationPattern p count w h rng
  | .mandala => (generateMandalaPattern p count (w/2) (h/2), rng)

/-- One iteration of `generateScatteredPositions`: draw x then y with margin
100 and append the point. -/
def scatterStep (w h : ℚ) (acc : List Vec2 × Rng) (_i : ℕ) : List Vec2 × Rng :=
  let r1 := randQ 100 (w - 100) acc.2
  let r2 := randQ 100 (h - 100) r1.2
  (acc.1 ++ [⟨r1.1, r2.1⟩], r2.2)

/-- GameEngine.generateScatteredPositions(count): `count` uniform positions
with margin 100 from each canvas edge, x then y per point. -/
def generateScatteredPositions (count : ℕ) (w h : ℚ) (rng : Rng) :
    List Vec2 × Rng :=
  (List.range count).foldl (scatterStep w h) ([], rng)

/-- One iteration of the fragment-creation loop of `startLevel`: draw a size
in [30,60) and construct a fully corrupted fragment whose pattern seed is its
index. -/
def mkFragStep (p : Prim) (scheme : List Color)
    (acc : List MemoryFragment × Rng) (it : ℕ × Vec2) :
    List MemoryFragment × Rng :=
  let r1 := randQ 30 60 acc.2
  let r2 := mkMemoryFragment p it.2.x it.2.y r1.1 1 scheme it.1 r1.2
  (acc.1 ++ [r2.1], r2.2)

/-- The fragment-creation loop of `startLevel`, over the indexed scattered
positions. -/
def mkFragments (p : Prim) (scatter : List Vec2) (scheme : List Color)
    (rng : Rng) : List MemoryFragment × Rng :=
  scatter.enum.foldl (mkFragStep p scheme) ([], rng)

/-- GameEngine.startLevel(levelIndex): an index at or past the catalog length
is reset to 0; a negative index survives the check, `levels[levelIndex]` is
`undefined`, and reading `level.patternType` throws — modelled as `none`.
Otherwise: clear fragments, wells, connections, targets and particles,
generate target positions and scattered start positions, create the
fragments, set state to PLAYING and emit `levelStarted`.  This helper is the
successful branch for a resolved level. -/
def startLevelResult (p : Prim) (e : Engine) (li : ℤ) (lv : Level)
    (rng : Rng) : Engine × Rng × List GEvent :=
  let rt :=
    generatePatternPositions p lv.patternType lv.fragmentCount
      e.canvasW e.canvasH rng
  let rs :=
    generateScatteredPositions lv.fragmentCount e.canvasW e.canvasH rt.2
  let rf := mkFragments p rs.1 lv.colorScheme rs.2
  ({ e with
     currentLevel := li, fragments := rf.1, gravityWells := [],
     connections := [], targetPositions := rt.1, particles := [],
     state := .PLAYING },
   rf.2, [GEvent.levelStarted li])

/-- GameEngine.startLevel, dispatching on the (possibly reset) level index. -/
def Engine.startLevel (p : Prim) (e : Engine) (levelIndex : ℤ) (rng : Rng) :
    Option (Engine × Rng × List GEvent) :=
  let li := if levelIndex ≥ (levels.length : ℤ) then 0 else levelIndex
  match jsIndex levels li with
  | none => none
  | some lv => some (startLevelResult p e li lv rng)

/-- Step 1 of the per-tick update: decrement each gravity well's lifetime by
dt and drop the expired ones. -/
def tickWells (dt : ℚ) (wells : List GravityWell) : List GravityWell :=
  wells.filterMap (fun w =>
    let w' := { w with lifetime := w.lifetime - dt }
    if w'.lifetime > 0 then some w' else none)

/-- The inner gravity-well loop of the per-fragment physics: inverse-square
attraction toward each well closer than its radius (and at nonzero
distance). -/
def applyWell (p : Prim) (dt : ℚ) (fpos : Vec2) (vel : Vec2)
    (w : GravityWell) : Vec2 :=
  let dist := Vec2.dist p fpos w.position
  if dist < w.radius ∧ dist > 0 then
    let force := w.strength / (dist * dist)
    let direction := Vec2.normalize p (Vec2.sub w.position fpos)
    Vec2.add vel (Vec2.smul direction (force * dt))
  else vel

/-- Step 2 of the per-fragment physics: gravity-well forces, weak attraction
(50 units/s²) toward the assigned target when farther than 20px, and healing
by 0.5·dt (floored at 0) when within 50px of the target.  A fragment with no
assigned target (index past the target list) skips the whole block. -/
def fragForces (p : Prim) (dt : ℚ) (wells : List GravityWell)
    (targets : List Vec2) (i : ℕ) (f : MemoryFragment) : MemoryFragment :=
  let vel1 := wells.foldl (applyWell p dt f.position) f.velocity
  match targets.get? i with
  | none => { f with velocity := vel1 }
  | some t =>
    let dist := Vec2.dist p f.position t
    let vel2 :=
      if dist > 20 then
        Vec2.add vel1 (Vec2.smul (Vec2.normalize p (Vec2.sub t f.position)) (50 * dt))
      else vel1
    let corruption' :=
      if dist < 50 then max 0 (f.corruptionLevel - dt * (1/2))
      else f.corruptionLevel
    { f with velocity := vel2, corruptionLevel := corruption' }

/-- Step 3 of the per-fragment physics: integrate position, damp velocity by
×0.95, clamp the position at least 50px from each canvas edge. -/
def fragIntegrate (dt w h : ℚ) (f : MemoryFragment) : MemoryFragment :=
  let pos1 := Vec2.add f.position (Vec2.smul f.velocity dt)
  { f with
    position := ⟨clampQ pos1.x 50 (w - 50), clampQ pos1.y 50 (h - 50)⟩,
    velocity := Vec2.smul f.velocity (95/100) }

/-- The full per-fragment state transformation of one engine tick: physics
(steps 2-3) followed by the fragment's own `update` (step 4).  The healing
particles the loop may emit touch only the particle pool and the random
stream, never the fragment states; they are handled in `tickFragments`. -/
def tickFragmentState (p : Prim) (dt : ℚ) (wells : List GravityWell)
    (targets : List Vec2) (mouse : Vec2) (radius w h : ℚ) (i : ℕ)
    (f : MemoryFragment) : MemoryFragment :=
  memUpdate p dt mouse radius (fragIntegrate dt w h (fragForces p dt wells targets i f))

/-- The fragment loop of GameEngine.update: transforms every fragment and,
when a fragment with an assigned target is within 50px of it, draws one
random number and, when it is below 0.1, emits 3 healing particles at the
fragment's (pre-integration) position in its current colour. -/
def tickFragStep (p : Prim) (dt : ℚ) (wells : List GravityWell)
    (targets : List Vec2) (mouse : Vec2) (radius w h : ℚ)
    (acc : List MemoryFragment × List Particle × Rng)
    (it : ℕ × MemoryFragment) : List MemoryFragment × List Particle × Rng :=
  let i := it.1
  let f := it.2
  let f1 := fragForces p dt wells targets i f
  let ps' :=
    match targets.get? i with
    | none => (acc.2.1, acc.2.2)
    | some t =>
      if Vec2.dist p f.position t < 50 then
        let r2 := Rng.next acc.2.2
        if r2.1 < 1/10 then
          psEmit p acc.2.1 f.position.x f.position.y 3 (getCurrentColor f1) r2.2
        else (acc.2.1, r2.2)
      else (acc.2.1, acc.2.2)
  let f3 := memUpdate p dt mouse radius (fragIntegrate dt w h f1)
  (acc.1 ++ [f3], ps'.1, ps'.2)

/-- The fragment loop of GameEngine.update over the indexed fragment list. -/
def tickFragments (p : Prim) (dt : ℚ) (wells : List GravityWell)
    (targets : List Vec2) (mouse : Vec2) (radius w h : ℚ)
    (fs : List MemoryFragment) (particles : List Particle) (rng : Rng) :
    List MemoryFragment × List Particle × Rng :=
  fs.enum.foldl (tickFragStep p dt wells targets mouse radius w h)
    ([], particles, rng)

/-- GameEngine.updateConnections: one edge per ordered pair i < j whose
fragments are both below 0.3 corruption and closer than 80px, with strength
1 − max of the two corruption levels. -/
def updateConnections (p : Prim) (fs : List MemoryFragment) : List Connection :=
  (List.range fs.length).flatMap (fun i =>
    ((List.range fs.length).filter (fun j => decide (i < j))).filterMap (fun j =>
      match fs.get? i, fs.get? j with
      | some f1, some f2 =>
        if Vec2.dist p f1.position f2.position < 80 ∧
            f1.corruptionLevel < 3/10 ∧ f2.corruptionLevel < 3/10 then
          some ⟨i, j, 1 - max f1.corruptionLevel f2.corruptionLevel⟩
        else none
      | _, _ => none))

/-- One connection scan of the DFS loop body: the JS
`if (from = current ∧ to unvisited) push to; else if (to = current ∧ from
unvisited) push from`, folded over the accumulating (visited, stack) pair.
The JS stack pushes and pops at the array's end; the list head plays that
role here. -/
def dfsStep (current : ℕ) (acc : Finset ℕ × List ℕ) (conn : Connection) :
    Finset ℕ × List ℕ :=
  if conn.from' = current ∧ conn.to' ∉ acc.1 then
    (insert conn.to' acc.1, conn.to' :: acc.2)
  else if conn.to' = current ∧ conn.from' ∉ acc.1 then
    (insert conn.from' acc.1, conn.from' :: acc.2)
  else acc

/-- The `while (stack.length > 0)` traversal of `checkLevelCompletion`,
written with explicit fuel.  Each iteration pops one stack entry; entries
are pushed exactly when a new vertex is inserted into `visited`, and every
pushed vertex is an endpoint of some connection, so a run started with one
stack entry can iterate at most `2·|conns| + 1` times — the fuel
`checkLevelCompletion` supplies.  Exhausted fuel therefore never cuts the
loop short there. -/
def dfsLoop (conns : List Connection) : ℕ → Finset ℕ → List ℕ → Finset ℕ
  | 0, visited, _ => visited
  | _ + 1, visited, [] => visited
  | fuel + 1, visited, current :: rest =>
    let r := conns.foldl (dfsStep current) (visited, rest)
    dfsLoop conns fuel r.1 r.2

/-- GameEngine.checkLevelCompletion: false for an empty fragment list or when
some fragment is at corruption ≥ 0.3; otherwise a stack traversal from
fragment 0 over the connection edges must visit as many vertices as there are
fragments. -/
def checkLevelCompletion (fs : List MemoryFragment) (conns : List Connection) :
    Bool :=
  if fs.length = 0 then false
  else if (fs.filter (fun f => decide (f.corruptionLevel < 3/10))).length < fs.length then
    false
  else (dfsLoop conns (2 * conns.length + 1) {0} [0]).card = fs.length

/-- GameEngine.getProgress: 0 for no fragments, otherwise half the mean healed
fraction plus half the connection count over n(n−1)/2 (the latter guarded to
0 when the denominator is not positive). -/
def getProgress (e : Engine) : ℚ :=
  if e.fragments.length = 0 then 0
  else
    let healingProgress :=
      (e.fragments.foldl (fun s f => s + (1 - f.corruptionLevel)) 0) /
        (e.fragments.length : ℚ)
    let maxConnections :=
      ((e.fragments.length : ℚ) * ((e.fragments.length : ℚ) - 1)) / 2
    let connectionProgress :=
      if maxConnections > 0 then (e.connections.length : ℚ) / maxConnections
      else 0
    healingProgress * (1/2) + connectionProgress * (1/2)

/-- GameEngine.update(deltaTime): a no-op unless PLAYING; otherwise prune the
gravity wells, run the per-fragment physics/healing/animation loop,
recompute the connection graph, advance the particle pool, run the
completion check (switching to LEVEL_COMPLETE and emitting `levelComplete`
when it passes), and emit `progressUpdate` with the new progress. -/
def Engine.update (p : Prim) (e : Engine) (dt : ℚ) (rng : Rng) :
    Engine × Rng × List GEvent :=
  if e.state ≠ GState.PLAYING then (e, rng, [])
  else
    let wells' := tickWells dt e.gravityWells
    let r := tickFragments p dt wells' e.targetPositions e.mousePos
      e.mouseInfluenceRadius e.canvasW e.canvasH e.fragments e.particles rng
    let fs' := r.1
    let conns' := updateConnections p fs'
    let ps2 := psUpdate dt r.2.1
    let complete := checkLevelCompletion fs' conns'
    let e' := { e with
                gravityWells := wells', fragments := fs',
                connections := conns', particles := ps2,
                state := if complete then .LEVEL_COMPLETE else .PLAYING }
    let events :=
      (if complete then [GEvent.levelComplete e.currentLevel] else []) ++
        [GEvent.progressUpdate (getProgress e')]
    (e', r.2.2, events)

/-- The operations C4 ranges over: the fragment's own `update`, an
`accelerateHealing` call, and the controller's near-target healing step
(game-engine.js line 302). -/
inductive FragOp where
  | update (dt : ℚ) (mousePos : Vec2) (influenceRadius : ℚ)
  | accelerate (amount : ℚ)
  | nearTargetHeal (dt : ℚ)

/-- Apply one C4 operation to a fragment. -/
def applyFragOp (p : Prim) (f : MemoryFragment) : FragOp → MemoryFragment
  | .update dt m r => memUpdate p dt m r f
  | .accelerate a => accelerateHealing f a
  | .nearTargetHeal dt => { f with corruptionLevel := max 0 (f.corruptionLevel - dt * (1/2)) }

/-- Time steps must be nonnegative; `accelerateHealing` amounts must be
nonnegative (the engine's only call site passes 0.1). -/
def validFragOp : FragOp → Prop
  | .update dt _ _ => 0 ≤ dt
  | .accelerate a => 0 ≤ a
  | .nearTargetHeal dt => 0 ≤ dt

/-- A concrete primitive record for witnesses: `Rat.sqrt` (exact on rational
squares), constant trigonometric functions with cos² + sin² = 1, and π read
as 0 (every theorem quantifies over the record, so any value serves). -/
def qPrim : Prim :=
  { sin := fun _ => 1, cos := fun _ => 0, sqrt := Rat.sqrt, pi := 0 }

/-- A concrete random tape: every `Math.random()` call returns 0. -/
def rng0 : Rng := ⟨fun _ => 0, 0⟩

/-- A concrete random tape: every `Math.random()` call returns 1/2. -/
def rngHalf : Rng := ⟨fun _ => (1:ℚ)/2, 0⟩

/-- Rat.sqrt is exact on squares of nonnegative rationals. -/
theorem ratSqrt_sq (q : ℚ) (h : 0 ≤ q) : Rat.sqrt (q * q) = q := by
  rw [Rat.sqrt_eq]; exact abs_of_nonneg h

/-- Rat.sqrt 0 = 0. -/
theorem ratSqrt_zero : Rat.sqrt 0 = 0 := by
  have h := ratSqrt_sq 0 le_rfl
  rw [mul_zero] at h
  exact h

/-- The emit loop produces exactly `count` particles. -/
theorem emitLoop_length (p : Prim) (x y : ℚ) (color : Color) :
    ∀ (n : ℕ) (rng : Rng), (emitLoop p x y color n rng).1.length = n := by
  intro n
  induction n with
  | zero => intro rng; rfl
  | succ m ih => intro rng; simp [emitLoop, ih]

/-- C7: after every emit the pool holds at most 500 particles; the surviving
pool is a suffix of the old pool followed by the freshly created particles,
of length min(old + count, 500) — i.e. exactly the most recently added 500
when the append would exceed the cap; a burst emit of 600 into an empty pool
keeps exactly the last 500 of the 600 new particles (drops the oldest 100). -/
theorem emit_pool_bound (p : Prim) (particles : List Particle) (x y : ℚ)
    (count : ℕ) (color : Color) (rng : Rng) :
    (psEmit p particles x y count color rng).1.length ≤ 500 ∧
    (psEmit p particles x y count color rng).1 <:+
      particles ++ (emitLoop p x y color count rng).1 ∧
    (psEmit p particles x y count color rng).1.length =
      min (particles.length + count) 500 ∧
    (particles = [] → count = 600 →
      (psEmit p particles x y count color rng).1 =
        (emitLoop p x y color 600 rng).1.drop 100) := by
  have hlen : (particles ++ (emitLoop p x y color count rng).1).length =
      particles.length + count := by
    simp [List.length_append, emitLoop_length]
  simp only [psEmit]
  by_cases hbig : (particles ++ (emitLoop p x y color count rng).1).length > 500
  · have hbig' : particles.length + count > 500 := by rw [← hlen]; exact hbig
    refine ⟨?_, ?_, ?_, ?_⟩
    · rw [if_pos hbig, List.length_drop]
      omega
    · rw [if_pos hbig]
      exact List.drop_suffix _ _
    · rw [if_pos hbig, List.length_drop, hlen]
      omega
    · intro hp hc
      subst hp; subst hc
      rw [if_pos hbig, hlen]
      simp only [List.nil_append, List.length_nil]
  · have hbig' : ¬ particles.length + count > 500 := by rw [← hlen]; exact hbig
    refine ⟨?_, ?_, ?_, ?_⟩
    · rw [if_neg hbig, hlen]
      omega
    · rw [if_neg hbig]
    · rw [if_neg hbig, hlen]
      omega
    · intro hp hc
      exfalso
      subst hp; subst hc
      simp only [List.length_nil] at hbig'
      omega

/-- Witness for C7: a burst emit of 600 particles into an empty pool, on the
all-zeros tape, retains exactly the most recent 500. -/
theorem emit_pool_bound_witness :
    (psEmit qPrim [] 0 0 600 ⟨255, 255, 255⟩ rng0).1 =
      (emitLoop qPrim 0 0 ⟨255, 255, 255⟩ 600 rng0).1.drop 100 :=
  (emit_pool_bound qPrim [] 0 0 600 ⟨255, 255, 255⟩ rng0).2.2.2 rfl rfl

/-- C8: one particle-system update advances each particle's position by
velocity·dt, then subtracts 20·dt from velocity.y and scales the velocity by
0.98, decrements the lifetime by dt, sets alpha to the new lifetime over
maxLifetime, and the pool keeps exactly the advanced particles whose new
lifetime is positive — those at lifetime ≤ 0 are removed in the same tick. -/
theorem particle_update_spec (dt : ℚ) (h : 0 ≤ dt) (q : Particle) :
    (partUpdate dt q).position = Vec2.add q.position (Vec2.smul q.velocity dt) ∧
    (partUpdate dt q).velocity =
      ⟨q.velocity.x * (98/100), (q.velocity.y - 20 * dt) * (98/100)⟩ ∧
    (partUpdate dt q).lifetime = q.lifetime - dt ∧
    (partUpdate dt q).alpha = (q.lifetime - dt) / q.maxLifetime ∧
    ∀ particles : List Particle,
      psUpdate dt particles =
        (particles.map (partUpdate dt)).filter (fun r => decide (r.lifetime > 0)) := by
  refine ⟨rfl, rfl, rfl, rfl, ?_⟩
  intro particles
  induction particles with
  | nil => rfl
  | cons a l ih =>
    by_cases hl : (partUpdate dt a).lifetime > 0 <;>
      simp only [psUpdate] at ih ⊢ <;>
      simp [List.filterMap_cons, List.filter_cons, hl, ih]

/-- A concrete particle for the C8 witness: lifetime 0.01, maxLifetime 1. -/
def cpart : Particle :=
  { position := ⟨0, 0⟩, velocity := ⟨0, 0⟩, color := ⟨255, 255, 255⟩,
    lifetime := 1/100, maxLifetime := 1, size := 3, alpha := 1 }

/-- Witness for C8: updating a pool holding one particle with lifetime 0.01
and maxLifetime 1.0 by dt = 0.02 removes the particle. -/
theorem particle_update_spec_witness : psUpdate (1/50) [cpart] = [] := by
  rw [(particle_update_spec (1/50) (by norm_num) cpart).2.2.2.2 [cpart]]
  have hlt : ¬ (partUpdate (1/50) cpart).lifetime > 0 := by
    norm_num [partUpdate, cpart]
  simp only [List.map_cons, List.map_nil, List.filter_cons, List.filter_nil]
  rw [if_neg (by simpa using hlt)]

/-- Any sequence of `accelerateHealing` calls keeps the accelerated heal rate
at most 0.5, provided it starts there. -/
theorem accelerate_fold_le (amounts : List ℚ) :
    ∀ f : MemoryFragment, f.acceleratedHealRate ≤ 1/2 →
      (amounts.foldl accelerateHealing f).acceleratedHealRate ≤ 1/2 := by
  induction amounts with
  | nil => intro f hf; exact hf
  | cons a l ih =>
    intro f hf
    exact ih (accelerateHealing f a) (min_le_left _ _)

/-- C9: `accelerateHealing(amount)` sets the accelerated heal rate to
min(0.5, current + amount); consequently, starting from any rate in [0, 0.5],
no sequence of calls with any amounts can push it above 0.5. -/
theorem accelerate_healing_cap (f : MemoryFragment)
    (h0 : 0 ≤ f.acceleratedHealRate) (h1 : f.acceleratedHealRate ≤ 1/2) :
    (∀ amount : ℚ, (accelerateHealing f amount).acceleratedHealRate =
      min (1/2) (f.acceleratedHealRate + amount)) ∧
    ∀ amounts : List ℚ,
      (amounts.foldl accelerateHealing f).acceleratedHealRate ≤ 1/2 :=
  ⟨fun _ => rfl, fun amounts => accelerate_fold_le amounts f h1⟩

/-- A concrete fragment used by several witnesses: fully corrupted, at rest at
(100, 100), default healing rates. -/
def cfrag : MemoryFragment :=
  { position := ⟨100, 100⟩, basePosition := ⟨100, 100⟩, velocity := ⟨0, 0⟩,
    mass := 1, size := 40, corruptionLevel := 1,
    colorScheme := [⟨50, 100, 200⟩, ⟨100, 150, 255⟩, ⟨150, 200, 255⟩],
    patternSeed := 0, rotation := 0, rotationSpeed := 0, pulsePhase := 0,
    driftPhase := 0, healRate := 1/100, acceleratedHealRate := 0 }

/-- Witness for C9 at a concrete fragment and a concrete call sequence. -/
theorem accelerate_healing_cap_witness :
    (0:ℚ) ≤ cfrag.acceleratedHealRate ∧ cfrag.acceleratedHealRate ≤ 1/2 ∧
    ((accelerateHealing cfrag 3).acceleratedHealRate =
      min (1/2) (cfrag.acceleratedHealRate + 3)) ∧
    ([3, -1, (7:ℚ)].foldl accelerateHealing cfrag).acceleratedHealRate ≤ 1/2 := by
  have h := accelerate_healing_cap cfrag (by norm_num [cfrag]) (by norm_num [cfrag])
  exact ⟨by norm_num [cfrag], by norm_num [cfrag], h.1 3, h.2 [3, -1, 7]⟩

/-- C10: `generateCirclePattern(n, cx, cy, r)` returns exactly `n` points; the
i-th lies at angle (2π·i)/n, and — whenever the square root is exact on
squares, cos² + sin² = 1 and the radius is nonnegative — every returned
point is at distance exactly `r` from the centre. -/
theorem circle_pattern_spec (p : Prim) (count : ℕ) (cx cy r : ℚ)
    (hcs : ∀ θ, p.cos θ * p.cos θ + p.sin θ * p.sin θ = 1)
    (hsq : ∀ q, 0 ≤ q → p.sqrt (q * q) = q) (hr : 0 ≤ r) :
    (generateCirclePattern p count cx cy r).length = count ∧
    (∀ i, i < count →
      (generateCirclePattern p count cx cy r).get? i =
        some ⟨cx + r * p.cos (2 * p.pi * (i : ℚ) / (count : ℚ)),
              cy + r * p.sin (2 * p.pi * (i : ℚ) / (count : ℚ))⟩) ∧
    ∀ pt ∈ generateCirclePattern p count cx cy r,
      Vec2.dist p ⟨cx, cy⟩ pt = r := by
  refine ⟨by rw [generateCirclePattern, List.length_map, List.length_range], ?_, ?_⟩
  · intro i hi
    rw [generateCirclePattern, List.get?_map, List.get?_range hi]
    rfl
  · intro pt hpt
    simp only [generateCirclePattern, List.mem_map, List.mem_range] at hpt
    obtain ⟨i, _, rfl⟩ := hpt
    set θ := 2 * p.pi * (i : ℚ) / (count : ℚ) with hθ
    rw [Vec2.dist, Vec2.sub, Vec2.mag]
    have h1 : (cx - (cx + r * p.cos θ)) * (cx - (cx + r * p.cos θ)) +
        (cy - (cy + r * p.sin θ)) * (cy - (cy + r * p.sin θ)) =
        r * r * (p.cos θ * p.cos θ + p.sin θ * p.sin θ) := by ring
    simp only []
    rw [h1, hcs θ, mul_one]
    exact hsq r hr

/-- Witness for C10: the concrete primitives (with cos ≡ 0, sin ≡ 1 and the
exact rational square root) at count 3, centre (7, 9), radius 5. -/
theorem circle_pattern_spec_witness :
    (generateCirclePattern qPrim 3 7 9 5).length = 3 ∧
    (∀ i, i < 3 →
      (generateCirclePattern qPrim 3 7 9 5).get? i =
        some ⟨7 + 5 * qPrim.cos (2 * qPrim.pi * (i : ℚ) / (3 : ℚ)),
              9 + 5 * qPrim.sin (2 * qPrim.pi * (i : ℚ) / (3 : ℚ))⟩) ∧
    ∀ pt ∈ generateCirclePattern qPrim 3 7 9 5,
      Vec2.dist qPrim ⟨7, 9⟩ pt = 5 :=
  circle_pattern_spec qPrim 3 7 9 5
    (by intro θ; norm_num [qPrim])
    (by intro q hq; simpa [qPrim] using ratSqrt_sq q hq)
    (by norm_num)

/-- C5 (amended): the circle, spiral, grid and mandala layout generators are
pure functions of their arguments — the produced positions do not depend on
the `Math.random()` stream, and the stream is not consumed. -/
theorem pattern_generators_deterministic (p : Prim) (count : ℕ) (w h : ℚ)
    (pt : PatternType) (hpt : pt ≠ PatternType.constellation)
    (rng1 rng2 : Rng) :
    (generatePatternPositions p pt count w h rng1).1 =
      (generatePatternPositions p pt count w h rng2).1 ∧
    (generatePatternPositions p pt count w h rng1).2 = rng1 := by
  cases pt
  case constellation => exact absurd rfl hpt
  all_goals exact ⟨rfl, rfl⟩

/-- Witness for C5: the grid generator at count 4 on two distinct random
streams. -/
theorem pattern_generators_deterministic_witness :
    (generatePatternPositions qPrim PatternType.grid 4 800 600 rng0).1 =
      (generatePatternPositions qPrim PatternType.grid 4 800 600 rngHalf).1 ∧
    (generatePatternPositions qPrim PatternType.grid 4 800 600 rng0).2 = rng0 :=
  pattern_generators_deterministic qPrim 4 800 600 PatternType.grid
    (by intro hq; cases hq) rng0 rngHalf

/-- Counterexample for C5 as stated: the constellation generator is not a
function of its arguments alone — on identical arguments it returns
different position lists for different states of the ambient `Math.random()`
stream (all-zeros tape versus all-halves tape). -/
theorem constellAttempt_nil (p : Prim) (w h : ℚ) (remaining : ℕ) (rng : Rng) :
    constellAttempt p [] w h remaining rng =
      (⟨(randQ 100 (w - 100) rng).1,
        (randQ 100 (h - 100) (randQ 100 (w - 100) rng).2).1⟩,
       (randQ 100 (h - 100) (randQ 100 (w - 100) rng).2).2) := by
  cases remaining with
  | zero => rfl
  | succ m => simp [constellAttempt]

/-- Counterexample for C5 as stated: the constellation generator is not a
function of its arguments alone — on identical arguments it returns
different position lists for different states of the ambient `Math.random()`
stream (all-zeros tape versus all-halves tape). -/
theorem constellation_nondeterministic :
    (generateConstellationPattern qPrim 1 800 600 rng0).1 ≠
      (generateConstellationPattern qPrim 1 800 600 rngHalf).1 := by
  simp only [generateConstellationPattern, List.range_succ, List.range_zero,
    List.nil_append, List.foldl_cons, List.foldl_nil, constellAttempt_nil,
    randQ, Rng.next, rng0, rngHalf]
  norm_num

/-- One valid C4 operation keeps the corruption level nonnegative and
non-increasing, keeps the accelerated heal rate nonnegative, and leaves the
base heal rate unchanged. -/
theorem fragOp_step (p : Prim) (f : MemoryFragment) (op : FragOp)
    (hv : validFragOp op) (h0 : 0 ≤ f.corruptionLevel)
    (ha : 0 ≤ f.acceleratedHealRate) (hh : 0 ≤ f.healRate) :
    0 ≤ (applyFragOp p f op).corruptionLevel ∧
    (applyFragOp p f op).corruptionLevel ≤ f.corruptionLevel ∧
    0 ≤ (applyFragOp p f op).acceleratedHealRate ∧
    (applyFragOp p f op).healRate = f.healRate := by
  cases op with
  | update dt m r =>
    have hdt : 0 ≤ dt := hv
    simp only [applyFragOp, memUpdate]
    set mi := max 0 (1 - Vec2.dist p f.position m / r) with hmi
    have hmi0 : 0 ≤ mi := le_max_left _ _
    have hrate : 0 ≤ (f.healRate + f.acceleratedHealRate) * (1 + mi * 2) := by
      have := add_nonneg hh ha
      nlinarith
    refine ⟨le_max_left _ _, ?_, by nlinarith, trivial⟩
    have : f.corruptionLevel - (f.healRate + f.acceleratedHealRate) * (1 + mi * 2) * dt ≤
        f.corruptionLevel := by nlinarith
    exact max_le h0 this
  | accelerate a =>
    have hva : 0 ≤ a := hv
    simp only [applyFragOp, accelerateHealing]
    refine ⟨h0, le_refl _, ?_, trivial⟩
    exact le_min (by norm_num) (add_nonneg ha hva)
  | nearTargetHeal dt =>
    have hdt : 0 ≤ dt := hv
    simp only [applyFragOp]
    refine ⟨le_max_left _ _, ?_, ha, trivial⟩
    have : f.corruptionLevel - dt * (1/2) ≤ f.corruptionLevel := by nlinarith
    exact max_le h0 this

/-- Folding any list of valid C4 operations preserves the invariant. -/
theorem fragOps_fold (p : Prim) (ops : List FragOp) :
    ∀ f : MemoryFragment, (∀ op ∈ ops, validFragOp op) →
      0 ≤ f.corruptionLevel → 0 ≤ f.acceleratedHealRate → 0 ≤ f.healRate →
      0 ≤ (ops.foldl (applyFragOp p) f).corruptionLevel ∧
      (ops.foldl (applyFragOp p) f).corruptionLevel ≤ f.corruptionLevel := by
  induction ops with
  | nil => intro f _ h0 _ _; exact ⟨h0, le_refl _⟩
  | cons op rest ih =>
    intro f hops h0 ha hh
    have hv : validFragOp op := hops op (List.mem_cons_self _ _)
    have hstep := fragOp_step p f op hv h0 ha hh
    have hrest := ih (applyFragOp p f op)
      (fun o ho => hops o (List.mem_cons_of_mem _ ho))
      hstep.1 hstep.2.2.1 (hstep.2.2.2 ▸ hh)
    exact ⟨hrest.1, le_trans hrest.2 hstep.2.1⟩

/-- C4 (amended): starting from a corruption level in [0,1], a nonnegative
accelerated heal rate and a nonnegative base heal rate, any sequence of
fragment updates (dt ≥ 0, arbitrary pointer position and influence radius),
`accelerateHealing` calls with nonnegative amounts, and near-target healing
steps (dt ≥ 0) keeps the corruption level in [0,1] and never increases it. -/
theorem corruption_invariant (p : Prim) (f : MemoryFragment)
    (ops : List FragOp) (hc0 : 0 ≤ f.corruptionLevel)
    (hc1 : f.corruptionLevel ≤ 1) (ha : 0 ≤ f.acceleratedHealRate)
    (hh : 0 ≤ f.healRate) (hops : ∀ op ∈ ops, validFragOp op) :
    0 ≤ (ops.foldl (applyFragOp p) f).corruptionLevel ∧
    (ops.foldl (applyFragOp p) f).corruptionLevel ≤ f.corruptionLevel ∧
    (ops.foldl (applyFragOp p) f).corruptionLevel ≤ 1 := by
  have h := fragOps_fold p ops f hops hc0 ha hh
  exact ⟨h.1, h.2, le_trans h.2 hc1⟩

/-- Witness for C4 at a concrete fragment and a concrete valid operation
sequence (an engine-style accelerateHealing(0.1), a fragment update, a
near-target healing step). -/
theorem corruption_invariant_witness :
    (0:ℚ) ≤ cfrag.corruptionLevel ∧ cfrag.corruptionLevel ≤ 1 ∧
    (0:ℚ) ≤ cfrag.acceleratedHealRate ∧ (0:ℚ) ≤ cfrag.healRate ∧
    (0 ≤ (([FragOp.accelerate (1/10), FragOp.update (1/60) ⟨0, 0⟩ 150,
        FragOp.nearTargetHeal (1/60)].foldl (applyFragOp qPrim) cfrag).corruptionLevel) ∧
     (([FragOp.accelerate (1/10), FragOp.update (1/60) ⟨0, 0⟩ 150,
        FragOp.nearTargetHeal (1/60)].foldl (applyFragOp qPrim) cfrag).corruptionLevel ≤
        cfrag.corruptionLevel) ∧
     (([FragOp.accelerate (1/10), FragOp.update (1/60) ⟨0, 0⟩ 150,
        FragOp.nearTargetHeal (1/60)].foldl (applyFragOp qPrim) cfrag).corruptionLevel ≤ 1)) := by
  refine ⟨by norm_num [cfrag], by norm_num [cfrag], by norm_num [cfrag],
    by norm_num [cfrag], ?_⟩
  refine corruption_invariant qPrim cfrag _ (by norm_num [cfrag])
    (by norm_num [cfrag]) (by norm_num [cfrag]) (by norm_num [cfrag]) ?_
  intro op hop
  simp only [List.mem_cons, List.not_mem_nil, or_false] at hop
  rcases hop with h | h | h <;> subst h <;> norm_num [validFragOp]

/-- Counterexample for C4 as stated: the claim puts no sign restriction on
the `accelerateHealing` amount.  A single call with amount −5 drives the
accelerated heal rate to −5 (the min-cap only bounds it from above), after
which one fragment update with dt = 1 *increases* the corruption level from
1 to 15.97 — outside [0,1]. -/
theorem corruption_invariant_counterexample :
    (([FragOp.accelerate (-5), FragOp.update 1 ⟨100, 100⟩ 150].foldl
        (applyFragOp qPrim) cfrag).corruptionLevel > 1) := by
  have hd : Vec2.dist qPrim ⟨100, 100⟩ ⟨100, 100⟩ = 0 := by
    show Rat.sqrt _ = 0
    norm_num [Vec2.sub, Vec2.mag, ratSqrt_zero]
  simp only [List.foldl_cons, List.foldl_nil, applyFragOp, accelerateHealing,
    memUpdate, cfrag]
  rw [hd]
  norm_num [min_def, max_def]

/-- The reduce-based healing sum of `getProgress` equals the sum of the mapped
healed fractions. -/
theorem foldl_healing_sum (l : List MemoryFragment) :
    ∀ a : ℚ, l.foldl (fun s f => s + (1 - f.corruptionLevel)) a =
      a + (l.map (fun f => 1 - f.corruptionLevel)).sum := by
  induction l with
  | nil => intro a; simp
  | cons f rest ih =>
    intro a
    simp only [List.foldl_cons, List.map_cons, List.sum_cons, ih]
    ring

/-- C3: for a non-empty fragment list the progress is half the mean healed
fraction plus half of (connection count) / (n(n−1)/2); for an empty list it
is 0.  (For n = 1 both the code's guarded branch and the claim's formula give
a zero connection share — division by zero is zero in ℚ.) -/
theorem progress_formula (e : Engine) :
    (e.fragments ≠ [] →
      getProgress e =
        (1/2) * ((e.fragments.map (fun f => 1 - f.corruptionLevel)).sum /
            (e.fragments.length : ℚ)) +
        (1/2) * ((e.connections.length : ℚ) /
            (((e.fragments.length : ℚ) * ((e.fragments.length : ℚ) - 1)) / 2))) ∧
    (e.fragments = [] → getProgress e = 0) := by
  constructor
  · intro hne
    have hlen : e.fragments.length ≠ 0 := by
      simpa [List.length_eq_zero] using hne
    simp only [getProgress, if_neg hlen]
    rw [foldl_healing_sum]
    by_cases hmax : ((e.fragments.length : ℚ) * ((e.fragments.length : ℚ) - 1)) / 2 > 0
    · rw [if_pos hmax]
      ring
    · rw [if_neg hmax]
      have h1 : 1 ≤ e.fragments.length := Nat.one_le_iff_ne_zero.mpr hlen
      have h1q : (1 : ℚ) ≤ (e.fragments.length : ℚ) := by exact_mod_cast h1
      have hz : ((e.fragments.length : ℚ) * ((e.fragments.length : ℚ) - 1)) / 2 = 0 := by
        have hge : 0 ≤ ((e.fragments.length : ℚ) * ((e.fragments.length : ℚ) - 1)) / 2 := by
          have : 0 ≤ (e.fragments.length : ℚ) * ((e.fragments.length : ℚ) - 1) := by
            nlinarith
          linarith
        push_neg at hmax
        linarith
      rw [hz, div_zero]
      ring
  · intro he
    unfold getProgress
    rw [if_pos (by simp [he])]

/-- A two-fragment engine (corruption levels 0 and 1, no connections) for the
C3 witness. -/
def progEx : Engine :=
  { mkEngine 800 600 with
    state := .PLAYING,
    fragments := [{ cfrag with corruptionLevel := 0 },
                  { cfrag with corruptionLevel := 1 }] }

/-- Witness for C3: with two fragments at corruption 0.0 and 1.0 and no
connections the emitted progress is 0.5·0.5 + 0.5·0 = 0.25. -/
theorem progress_formula_witness :
    progEx.fragments ≠ [] ∧ getProgress progEx = 1/4 := by
  have h := (progress_formula progEx).1 (by simp [progEx])
  refine ⟨by simp [progEx], ?_⟩
  rw [h]
  norm_num [progEx, mkEngine, cfrag]

/-- The scatter loop appends one position per iteration. -/
theorem scatterFold_length (w h : ℚ) (l : List ℕ) :
    ∀ acc : List Vec2 × Rng,
      ((l.foldl (scatterStep w h) acc).1).length = acc.1.length + l.length := by
  induction l with
  | nil => intro acc; simp
  | cons a rest ih =>
    intro acc
    rw [List.foldl_cons, ih]
    simp [scatterStep]
    omega

/-- `generateScatteredPositions` produces exactly `count` positions. -/
theorem generateScatteredPositions_length (count : ℕ) (w h : ℚ) (rng : Rng) :
    (generateScatteredPositions count w h rng).1.length = count := by
  rw [generateScatteredPositions, scatterFold_length]
  simp

/-- The fragment-creation loop appends one fragment per scattered position. -/
theorem mkFragFold_length (p : Prim) (scheme : List Color)
    (l : List (ℕ × Vec2)) :
    ∀ acc : List MemoryFragment × Rng,
      ((l.foldl (mkFragStep p scheme) acc).1).length = acc.1.length + l.length := by
  induction l with
  | nil => intro acc; simp
  | cons a rest ih =>
    intro acc
    rw [List.foldl_cons, ih]
    simp [mkFragStep]
    omega

/-- `mkFragments` produces one fragment per scattered position. -/
theorem mkFragments_length (p : Prim) (scatter : List Vec2)
    (scheme : List Color) (rng : Rng) :
    (mkFragments p scatter scheme rng).1.length = scatter.length := by
  rw [mkFragments, mkFragFold_length]
  simp [List.enum_length]

/-- C6 (amended): for every integer index ≥ 0, `startLevel` succeeds; an
index at or beyond the catalog length is deterministically reset to level 0;
the gravity-well and connection lists are cleared, the particle pool is
cleared, the fragment list is repopulated with exactly the level's
`fragmentCount` fragments, the target positions are regenerated from the
level's pattern, the state becomes PLAYING and `levelStarted` is emitted.
(For a negative index the JS code reads the undefined `levels[levelIndex]`
and throws, see the counterexample.) -/
theorem start_level_spec (p : Prim) (e : Engine) (rng : Rng) (i : ℤ)
    (hi : 0 ≤ i) :
    ∃ lv : Level,
      jsIndex levels (if i ≥ (levels.length : ℤ) then 0 else i) = some lv ∧
      Engine.startLevel p e i rng =
        some (startLevelResult p e (if i ≥ (levels.length : ℤ) then 0 else i) lv rng) ∧
      (startLevelResult p e (if i ≥ (levels.length : ℤ) then 0 else i) lv rng).1.state =
        GState.PLAYING ∧
      (startLevelResult p e (if i ≥ (levels.length : ℤ) then 0 else i) lv rng).1.currentLevel =
        (if i ≥ (levels.length : ℤ) then 0 else i) ∧
      ((levels.length : ℤ) ≤ i →
        (startLevelResult p e (if i ≥ (levels.length : ℤ) then 0 else i) lv rng).1.currentLevel = 0) ∧
      (startLevelResult p e (if i ≥ (levels.length : ℤ) then 0 else i) lv rng).1.gravityWells = [] ∧
      (startLevelResult p e (if i ≥ (levels.length : ℤ) then 0 else i) lv rng).1.connections = [] ∧
      (startLevelResult p e (if i ≥ (levels.length : ℤ) then 0 else i) lv rng).1.particles = [] ∧
      (startLevelResult p e (if i ≥ (levels.length : ℤ) then 0 else i) lv rng).1.fragments.length =
        lv.fragmentCount ∧
      (startLevelResult p e (if i ≥ (levels.length : ℤ) then 0 else i) lv rng).1.targetPositions =
        (generatePatternPositions p lv.patternType lv.fragmentCount
          e.canvasW e.canvasH rng).1 ∧
      (startLevelResult p e (if i ≥ (levels.length : ℤ) then 0 else i) lv rng).2.2 =
        [GEvent.levelStarted (if i ≥ (levels.length : ℤ) then 0 else i)] := by
  have hlen5 : levels.length = 5 := rfl
  set li : ℤ := if i ≥ (levels.length : ℤ) then 0 else i with hli
  have hli0 : 0 ≤ li := by
    by_cases hge : i ≥ (levels.length : ℤ) <;> simp [hli, hge] <;> omega
  have hlt : li.toNat < levels.length := by
    by_cases hge : i ≥ (levels.length : ℤ) <;> simp [hli, hge, hlen5] <;> omega
  have hjs : jsIndex levels li = some (levels.get ⟨li.toNat, hlt⟩) := by
    simp [jsIndex, hli0, List.get?_eq_get hlt]
  refine ⟨levels.get ⟨li.toNat, hlt⟩, hjs,
    by simp only [Engine.startLevel, ← hli, hjs], rfl, rfl, ?_, rfl, rfl, rfl,
    ?_, rfl, rfl⟩
  · intro h5
    show li = 0
    rw [hli, if_pos h5]
  · simp only [startLevelResult, mkFragments_length,
      generateScatteredPositions_length]

/-- Witness for C6: starting level index 7 (beyond the 5-entry catalog) on a
fresh 800×600 engine wraps to level 0, which has 5 fragments, and the engine
ends up PLAYING with cleared wells and connections. -/
theorem start_level_spec_witness :
    Engine.startLevel qPrim (mkEngine 800 600) 7 rng0 =
      some (startLevelResult qPrim (mkEngine 800 600) 0
        (levels.get ⟨0, by norm_num [levels]⟩) rng0) ∧
    (startLevelResult qPrim (mkEngine 800 600) 0
        (levels.get ⟨0, by norm_num [levels]⟩) rng0).1.state = GState.PLAYING ∧
    (startLevelResult qPrim (mkEngine 800 600) 0
        (levels.get ⟨0, by norm_num [levels]⟩) rng0).1.currentLevel = 0 ∧
    (startLevelResult qPrim (mkEngine 800 600) 0
        (levels.get ⟨0, by norm_num [levels]⟩) rng0).1.fragments.length = 5 := by
  have hif : (if (7:ℤ) ≥ (levels.length : ℤ) then (0:ℤ) else 7) = 0 := by
    norm_num [levels]
  obtain ⟨lv, hjs, hstart, hstate, hcur, hwrap, hw, hc, hp, hfrag, htgt, hev⟩ :=
    start_level_spec qPrim (mkEngine 800 600) rng0 7 (by norm_num)
  rw [hif] at hjs hstart
  have hlv : lv = levels.get ⟨0, by norm_num [levels]⟩ := by
    have h0 : jsIndex levels 0 = some (levels.get ⟨0, by norm_num [levels]⟩) := rfl
    rw [h0] at hjs
    exact (Option.some_injective _ hjs).symm
  subst hlv
  rw [hif] at hstate hcur hfrag
  refine ⟨hstart, hstate, hcur, ?_⟩
  rw [hfrag]
  rfl

/-- Counterexample for C6 as stated: a negative index is not wrapped into
[0, levelCount).  `startLevel(-1)` reads `levels[-1]` (undefined in JS) and
throws on `level.patternType` — in the model it returns `none` instead of
starting a level. -/
theorem start_level_negative_counterexample :
    Engine.startLevel qPrim (mkEngine 800 600) (-1) rng0 = none := by
  have hif : (if (-1:ℤ) ≥ (levels.length : ℤ) then (0:ℤ) else -1) = -1 := by
    norm_num [levels]
  simp only [Engine.startLevel, hif]
  rfl

/-- The tick's fragment loop appends exactly the per-fragment transformation
of each indexed fragment; the particle/random side effects never feed back
into the fragment states. -/
theorem tickFold_fragments (p : Prim) (dt : ℚ) (wells : List GravityWell)
    (targets : List Vec2) (mouse : Vec2) (radius w h : ℚ)
    (l : List (ℕ × MemoryFragment)) :
    ∀ acc : List MemoryFragment × List Particle × Rng,
      ((l.foldl (tickFragStep p dt wells targets mouse radius w h) acc).1) =
        acc.1 ++ l.map (fun it =>
          tickFragmentState p dt wells targets mouse radius w h it.1 it.2) := by
  induction l with
  | nil => intro acc; simp
  | cons a rest ih =>
    intro acc
    rw [List.foldl_cons, ih]
    simp [tickFragStep, tickFragmentState, List.append_assoc]

/-- The post-tick fragment list is the indexed map of the per-fragment
transformation. -/
theorem tickFragments_fst (p : Prim) (dt : ℚ) (wells : List GravityWell)
    (targets : List Vec2) (mouse : Vec2) (radius w h : ℚ)
    (fs : List MemoryFragment) (particles : List Particle) (rng : Rng) :
    (tickFragments p dt wells targets mouse radius w h fs particles rng).1 =
      fs.enum.map (fun it =>
        tickFragmentState p dt wells targets mouse radius w h it.1 it.2) := by
  rw [tickFragments, tickFold_fragments]
  simp

/-- While PLAYING, the i-th post-tick fragment is exactly the per-fragment
transformation (forces, integration, clamping, then the fragment's own
update) of the i-th pre-tick fragment. -/
theorem update_fragments_get (p : Prim) (e : Engine) (dt : ℚ) (rng : Rng)
    (h : e.state = GState.PLAYING) (i : ℕ) (f : MemoryFragment)
    (hf : e.fragments.get? i = some f) :
    (Engine.update p e dt rng).1.fragments.get? i =
      some (tickFragmentState p dt (tickWells dt e.gravityWells)
        e.targetPositions e.mousePos e.mouseInfluenceRadius
        e.canvasW e.canvasH i f) := by
  rw [Engine.update, if_neg (by simp [h])]
  simp only [tickFragments_fst, List.get?_map, List.get?_enum, hf,
    Option.map_some]
  rfl

/-- The physics steps (forces and integration) leave `basePosition` and
`driftPhase` untouched. -/
theorem fragPhysics_preserves (p : Prim) (dt : ℚ) (wells : List GravityWell)
    (targets : List Vec2) (i : ℕ) (f : MemoryFragment) (w h : ℚ) :
    ((fragIntegrate dt w h (fragForces p dt wells targets i f)).basePosition =
      f.basePosition) ∧
    ((fragIntegrate dt w h (fragForces p dt wells targets i f)).driftPhase =
      f.driftPhase) := by
  unfold fragIntegrate fragForces
  cases targets.get? i <;> exact ⟨rfl, rfl⟩

/-- The intra-tick physics state of fragment i (steps 1-3 of the per-tick
update: decremented wells, forces, integration, clamping), before the
fragment's own `update` runs. -/
def tickPhys (p : Prim) (e : Engine) (dt : ℚ) (i : ℕ)
    (f : MemoryFragment) : MemoryFragment :=
  fragIntegrate dt e.canvasW e.canvasH
    (fragForces p dt (tickWells dt e.gravityWells) e.targetPositions i f)

/-- The mouse influence MemoryFragment.update computes during the tick: it is
measured from the *post-physics* position of the fragment. -/
def tickMouseInfluence (p : Prim) (e : Engine) (dt : ℚ) (i : ℕ)
    (f : MemoryFragment) : ℚ :=
  max 0 (1 - Vec2.dist p (tickPhys p e dt i f).position e.mousePos /
    e.mouseInfluenceRadius)

/-- C2 (amended): while PLAYING, the i-th fragment's end-of-tick position is
basePosition plus the sinusoidal drift offset scaled by
(1 − 0.5·mouseInfluence) — MemoryFragment.update overwrites the position from
basePosition, so the gravity-well forces, target attraction, velocity
integration and boundary clamping of steps 2-3 do not contribute to it
directly.  They do contribute *through* the mouse-influence factor, which is
computed from the intra-tick physics-updated position (see the
counterexample), so the claim's stronger reading — that steps 2-3 have no
effect at all on the end-of-tick position — is false. -/
theorem fragment_position_after_tick (p : Prim) (e : Engine) (dt : ℚ)
    (rng : Rng) (h : e.state = GState.PLAYING) (i : ℕ) (f : MemoryFragment)
    (hf : e.fragments.get? i = some f) :
    (Engine.update p e dt rng).1.fragments.get? i =
      some (memUpdate p dt e.mousePos e.mouseInfluenceRadius
        (tickPhys p e dt i f)) ∧
    (memUpdate p dt e.mousePos e.mouseInfluenceRadius
        (tickPhys p e dt i f)).basePosition = f.basePosition ∧
    (memUpdate p dt e.mousePos e.mouseInfluenceRadius
        (tickPhys p e dt i f)).position =
      ⟨f.basePosition.x + p.sin (f.driftPhase + dt * (1/2)) * 10 *
          (1 - tickMouseInfluence p e dt i f * (1/2)),
       f.basePosition.y + p.cos ((f.driftPhase + dt * (1/2)) * (7/10)) * 10 *
          (1 - tickMouseInfluence p e dt i f * (1/2))⟩ := by
  have hpres := fragPhysics_preserves p dt (tickWells dt e.gravityWells)
    e.targetPositions i f e.canvasW e.canvasH
  refine ⟨update_fragments_get p e dt rng h i f hf, ?_, ?_⟩
  · simp only [memUpdate]
    exact hpres.1
  · simp only [memUpdate, tickMouseInfluence, tickPhys]
    rw [show (fragIntegrate dt e.canvasW e.canvasH
      (fragForces p dt (tickWells dt e.gravityWells) e.targetPositions i f)).basePosition =
        f.basePosition from hpres.1,
      show (fragIntegrate dt e.canvasW e.canvasH
        (fragForces p dt (tickWells dt e.gravityWells) e.targetPositions i f)).driftPhase =
          f.driftPhase from hpres.2]

/-- Witness for C2 at a concrete PLAYING engine and its fragment 0. -/
theorem fragment_position_after_tick_witness :
    (Engine.update qPrim progEx (1/60) rng0).1.fragments.get? 0 =
      some (memUpdate qPrim (1/60) progEx.mousePos progEx.mouseInfluenceRadius
        (tickPhys qPrim progEx (1/60) 0 { cfrag with corruptionLevel := 0 })) ∧
    (memUpdate qPrim (1/60) progEx.mousePos progEx.mouseInfluenceRadius
        (tickPhys qPrim progEx (1/60) 0
          { cfrag with corruptionLevel := 0 })).basePosition =
      ({ cfrag with corruptionLevel := 0 } : MemoryFragment).basePosition ∧
    (memUpdate qPrim (1/60) progEx.mousePos progEx.mouseInfluenceRadius
        (tickPhys qPrim progEx (1/60) 0
          { cfrag with corruptionLevel := 0 })).position =
      ⟨({ cfrag with corruptionLevel := 0 } : MemoryFragment).basePosition.x +
          qPrim.sin (({ cfrag with corruptionLevel := 0 } : MemoryFragment).driftPhase +
            (1/60) * (1/2)) * 10 *
          (1 - tickMouseInfluence qPrim progEx (1/60) 0
            { cfrag with corruptionLevel := 0 } * (1/2)),
       ({ cfrag with corruptionLevel := 0 } : MemoryFragment).basePosition.y +
          qPrim.cos ((({ cfrag with corruptionLevel := 0 } : MemoryFragment).driftPhase +
            (1/60) * (1/2)) * (7/10)) * 10 *
          (1 - tickMouseInfluence qPrim progEx (1/60) 0
            { cfrag with corruptionLevel := 0 } * (1/2))⟩ :=
  fragment_position_after_tick qPrim progEx (1/60) rng0 rfl 0
    { cfrag with corruptionLevel := 0 } rfl

/-- The C2 counterexample fragment: at rest at (100,100) except for a nonzero
velocity, which only the step-2/3 physics reads. -/
def cfragV : MemoryFragment := { cfrag with velocity := ⟨1500, 0⟩ }

/-- The C2 counterexample engine: PLAYING, pointer at (0, 100), no wells, no
targets, one fragment. -/
def ceng : Engine :=
  { mkEngine 800 600 with
    state := .PLAYING, mousePos := ⟨0, 100⟩, fragments := [cfragV] }

/-- Counterexample for C2 as stated: steps 2-3 *do* affect the end-of-tick
position.  With a fragment whose velocity is (1500, 0), one tick of dt = 0.01
moves the intra-tick position from (100,100) to (115,100); the mouse
influence (pointer at (0,100), radius 150) is therefore 7/30 instead of 1/3,
and the end-of-tick x-coordinate is 100 + 53/6 instead of the 100 + 50/6
produced when the integration step is skipped. -/
theorem physics_affects_position_counterexample :
    Option.map (fun g => g.position)
        ((Engine.update qPrim ceng (1/100) rng0).1.fragments.get? 0) ≠
      some (memUpdate qPrim (1/100) ceng.mousePos ceng.mouseInfluenceRadius
        cfragV).position := by
  have hup := update_fragments_get qPrim ceng (1/100) rng0 rfl 0 cfragV rfl
  rw [hup]
  have hforce : fragForces qPrim (1/100) (tickWells (1/100) ceng.gravityWells)
      ceng.targetPositions 0 cfragV = cfragV := rfl
  have hint : fragIntegrate (1/100) ceng.canvasW ceng.canvasH cfragV =
      { cfragV with position := ⟨115, 100⟩, velocity := ⟨1425, 0⟩ } := by
    simp only [fragIntegrate, Vec2.add, Vec2.smul, clampQ, cfragV, cfrag, ceng,
      mkEngine]
    norm_num [min_def, max_def]
  have h115 : Vec2.dist qPrim (⟨115, 100⟩ : Vec2) (⟨0, 100⟩ : Vec2) = 115 := by
    show Rat.sqrt ((115 - 0) * (115 - 0) + ((100:ℚ) - 100) * (100 - 100)) = 115
    rw [show ((115:ℚ) - 0) * (115 - 0) + ((100:ℚ) - 100) * (100 - 100) =
      115 * 115 from by norm_num]
    exact ratSqrt_sq 115 (by norm_num)
  have h100 : Vec2.dist qPrim (⟨100, 100⟩ : Vec2) (⟨0, 100⟩ : Vec2) = 100 := by
    show Rat.sqrt ((100 - 0) * (100 - 0) + ((100:ℚ) - 100) * (100 - 100)) = 100
    rw [show ((100:ℚ) - 0) * (100 - 0) + ((100:ℚ) - 100) * (100 - 100) =
      100 * 100 from by norm_num]
    exact ratSqrt_sq 100 (by norm_num)
  show some (memUpdate qPrim (1/100) ceng.mousePos ceng.mouseInfluenceRadius
      (fragIntegrate (1/100) ceng.canvasW ceng.canvasH
        (fragForces qPrim (1/100) (tickWells (1/100) ceng.gravityWells)
          ceng.targetPositions 0 cfragV))).position ≠ _
  rw [hforce, hint]
  simp only [memUpdate, ne_eq, Option.some.injEq]
  intro hEq
  have hx := congrArg Vec2.x hEq
  have hB : (ceng.mousePos : Vec2) = (⟨0, 100⟩ : Vec2) := rfl
  have hC : cfragV.position = (⟨100, 100⟩ : Vec2) := rfl
  rw [hB, hC, h115, h100] at hx
  norm_num [cfragV, cfrag, qPrim, max_def, ceng, mkEngine] at hx

/-- A filter keeps the whole list exactly when every element satisfies the
predicate (the form `checkLevelCompletion` uses to test that all fragments
are healed). -/
theorem filter_length_eq_iff {α : Type} (l : List α) (q : α → Bool) :
    (l.filter q).length = l.length ↔ ∀ a ∈ l, q a = true := by
  constructor
  · intro hlen
    have := (List.filter_sublist (p := q) l).eq_of_length hlen
    exact List.filter_eq_self.mp this
  · intro hall
    rw [List.filter_eq_self.mpr hall]

/-- Every connection `updateConnections` builds joins two valid fragment
indices. -/
theorem mem_updateConnections (p : Prim) (fs : List MemoryFragment)
    (c : Connection) (hc : c ∈ updateConnections p fs) :
    c.from' < fs.length ∧ c.to' < fs.length := by
  simp only [updateConnections, List.mem_flatMap, List.mem_filterMap,
    List.mem_filter, List.mem_range] at hc
  obtain ⟨i, hi, j, ⟨hj, _⟩, hcase⟩ := hc
  split at hcase
  · split at hcase
    · cases hcase
      exact ⟨hi, hj⟩
    · cases hcase
  · cases hcase

/-- The inner connection scan of the DFS only ever inserts connection
endpoints, so it preserves being inside `range n`. -/
theorem dfsFold_subset (n : ℕ) (cur : ℕ) :
    ∀ conns : List Connection, (∀ c ∈ conns, c.from' < n ∧ c.to' < n) →
      ∀ acc : Finset ℕ × List ℕ, acc.1 ⊆ Finset.range n →
        (conns.foldl (dfsStep cur) acc).1 ⊆ Finset.range n := by
  intro conns
  induction conns with
  | nil => intro _ acc hacc; exact hacc
  | cons c rest ih =>
    intro hc acc hacc
    rw [List.foldl_cons]
    refine ih (fun d hd => hc d (List.mem_cons_of_mem _ hd)) _ ?_
    have hcr := hc c (List.mem_cons_self _ _)
    unfold dfsStep
    split_ifs with h1 h2
    · exact Finset.insert_subset (Finset.mem_range.mpr hcr.2) hacc
    · exact Finset.insert_subset (Finset.mem_range.mpr hcr.1) hacc
    · exact hacc

/-- The DFS visited set stays inside `range n` when it starts there and all
connection endpoints are below n. -/
theorem dfsLoop_subset (n : ℕ) (conns : List Connection)
    (hc : ∀ c ∈ conns, c.from' < n ∧ c.to' < n) :
    ∀ (fuel : ℕ) (v : Finset ℕ) (s : List ℕ), v ⊆ Finset.range n →
      dfsLoop conns fuel v s ⊆ Finset.range n := by
  intro fuel
  induction fuel with
  | zero => intro v s hv; exact hv
  | succ m ih =>
    intro v s hv
    cases s with
    | nil => exact hv
    | cons cur rest =>
      show dfsLoop conns m _ _ ⊆ Finset.range n
      exact ih _ _ (dfsFold_subset n cur conns hc (v, rest) hv)

/-- `checkLevelCompletion` on the freshly rebuilt connection graph holds
exactly when the fragment list is non-empty, every fragment is below 0.3
corruption, and the stack traversal from index 0 visits every fragment
index. -/
theorem checkLevelCompletion_iff (p : Prim) (fs : List MemoryFragment) :
    checkLevelCompletion fs (updateConnections p fs) = true ↔
      (fs ≠ [] ∧ (∀ f ∈ fs, f.corruptionLevel < 3/10) ∧
       ∀ i < fs.length,
         i ∈ dfsLoop (updateConnections p fs)
           (2 * (updateConnections p fs).length + 1) {0} [0]) := by
  unfold checkLevelCompletion
  by_cases h0 : fs.length = 0
  · rw [if_pos h0]
    simp only [Bool.false_eq_true, false_iff]
    rintro ⟨hne, -, -⟩
    exact hne (List.length_eq_zero.mp h0)
  · rw [if_neg h0]
    have hne : fs ≠ [] := fun he => h0 (by rw [he]; rfl)
    have hn0 : 0 < fs.length := Nat.pos_of_ne_zero h0
    have hsub : dfsLoop (updateConnections p fs)
        (2 * (updateConnections p fs).length + 1) {0} [0] ⊆
        Finset.range fs.length := by
      refine dfsLoop_subset fs.length _
        (fun c hc => mem_updateConnections p fs c hc) _ _ _ ?_
      simp [Finset.singleton_subset_iff, Finset.mem_range, hn0]
    by_cases hfil : (fs.filter (fun f => decide (f.corruptionLevel < 3/10))).length <
        fs.length
    · rw [if_pos hfil]
      simp only [Bool.false_eq_true, false_iff]
      rintro ⟨-, hall, -⟩
      have : (fs.filter (fun f => decide (f.corruptionLevel < 3/10))).length =
          fs.length :=
        (filter_length_eq_iff fs _).mpr (fun f hf => decide_eq_true (hall f hf))
      omega
    · rw [if_neg hfil]
      have hall : ∀ f ∈ fs, f.corruptionLevel < 3/10 := by
        have hle := List.length_filter_le (fun f => decide (f.corruptionLevel < 3/10)) fs
        have heq : (fs.filter (fun f => decide (f.corruptionLevel < 3/10))).length =
            fs.length := by omega
        intro f hf
        exact of_decide_eq_true ((filter_length_eq_iff fs _).mp heq f hf)
      constructor
      · intro hcard
        refine ⟨hne, hall, ?_⟩
        have hcard' : (dfsLoop (updateConnections p fs)
            (2 * (updateConnections p fs).length + 1) {0} [0]).card = fs.length :=
          of_decide_eq_true hcard
        have hEq : dfsLoop (updateConnections p fs)
            (2 * (updateConnections p fs).length + 1) {0} [0] =
            Finset.range fs.length :=
          Finset.eq_of_subset_of_card_le hsub
            (by rw [Finset.card_range, hcard'])
        intro i hi
        rw [hEq]
        exact Finset.mem_range.mpr hi
      · rintro ⟨-, -, hvis⟩
        have hsup : Finset.range fs.length ⊆
            dfsLoop (updateConnections p fs)
              (2 * (updateConnections p fs).length + 1) {0} [0] :=
          fun i hi => hvis i (Finset.mem_range.mp hi)
        have hEq := Finset.Subset.antisymm hsub hsup
        rw [hEq]
        simp [Finset.card_range]

/-- C1: on a tick while PLAYING, the state becomes LEVEL_COMPLETE exactly
when, for the fragment states as they stand at check time (after this tick's
physics/healing phase), the fragment list is non-empty, every fragment has
corruption below 0.3, and the stack traversal from fragment index 0 over the
freshly rebuilt connection edges (one edge per unordered pair with both
corruptions < 0.3 and distance < 80px, strength 1 − the larger corruption —
see `updateConnections`) visits every fragment index.  When it does, a
`levelComplete` event is emitted; otherwise the state stays PLAYING and no
completion event is emitted. -/
theorem level_completion_spec (p : Prim) (e : Engine) (dt : ℚ) (rng : Rng)
    (h : e.state = GState.PLAYING) :
    ((Engine.update p e dt rng).1.state = GState.LEVEL_COMPLETE ↔
      ((Engine.update p e dt rng).1.fragments ≠ [] ∧
       (∀ f ∈ (Engine.update p e dt rng).1.fragments,
         f.corruptionLevel < 3/10) ∧
       ∀ i < (Engine.update p e dt rng).1.fragments.length,
         i ∈ dfsLoop
           (updateConnections p (Engine.update p e dt rng).1.fragments)
           (2 * (updateConnections p (Engine.update p e dt rng).1.fragments).length + 1)
           {0} [0])) ∧
    ((Engine.update p e dt rng).1.connections =
      updateConnections p (Engine.update p e dt rng).1.fragments) ∧
    ((Engine.update p e dt rng).1.state = GState.LEVEL_COMPLETE →
      GEvent.levelComplete e.currentLevel ∈ (Engine.update p e dt rng).2.2) ∧
    ((Engine.update p e dt rng).1.state ≠ GState.LEVEL_COMPLETE →
      (Engine.update p e dt rng).1.state = GState.PLAYING ∧
      GEvent.levelComplete e.currentLevel ∉ (Engine.update p e dt rng).2.2) := by
  have hnp : ¬ e.state ≠ GState.PLAYING := by simp [h]
  set fs' := (tickFragments p dt (tickWells dt e.gravityWells)
    e.targetPositions e.mousePos e.mouseInfluenceRadius e.canvasW e.canvasH
    e.fragments e.particles rng).1 with hfs
  have hfrag : (Engine.update p e dt rng).1.fragments = fs' := by
    rw [Engine.update, if_neg hnp]
  have hconn : (Engine.update p e dt rng).1.connections =
      updateConnections p fs' := by
    rw [Engine.update, if_neg hnp]
  have hstate : (Engine.update p e dt rng).1.state =
      (if checkLevelCompletion fs' (updateConnections p fs')
        then GState.LEVEL_COMPLETE else GState.PLAYING) := by
    rw [Engine.update, if_neg hnp]
  have hev : (Engine.update p e dt rng).2.2 =
      (if checkLevelCompletion fs' (updateConnections p fs')
        then [GEvent.levelComplete e.currentLevel] else []) ++
      [GEvent.progressUpdate (getProgress ((Engine.update p e dt rng).1))] := by
    rw [Engine.update, if_neg hnp]
  rcases Bool.eq_false_or_eq_true
    (checkLevelCompletion fs' (updateConnections p fs')) with hc | hc
  · refine ⟨?_, by rw [hconn, hfrag], ?_, ?_⟩
    · rw [hstate, hfrag, if_pos hc]
      simp only [true_iff]
      exact (checkLevelCompletion_iff p fs').mp hc
    · intro _
      rw [hev, if_pos hc]
      exact List.mem_append_left _ (List.mem_cons_self _ _)
    · intro hnl
      exact absurd (by rw [hstate, if_pos hc]) hnl
  · refine ⟨?_, by rw [hconn, hfrag], ?_, ?_⟩
    · rw [hstate, hfrag, if_neg (by simp [hc])]
      constructor
      · intro hPL
        exact absurd hPL (by decide)
      · intro hRHS
        have htr := (checkLevelCompletion_iff p fs').mpr hRHS
        rw [hc] at htr
        cases htr
    · intro hlc
      rw [hstate, if_neg (by simp [hc])] at hlc
      exact absurd hlc (by decide)
    · intro _
      refine ⟨by rw [hstate, if_neg (by simp [hc])], ?_⟩
      rw [hev, if_neg (by simp [hc])]
      simp

/-- A PLAYING engine with no fragments, for the C1 witness. -/
def cengEmpty : Engine := { mkEngine 800 600 with state := .PLAYING }

/-- Witness for C1 at a concrete PLAYING engine. -/
theorem level_completion_spec_witness :
    ((Engine.update qPrim cengEmpty (1/60) rng0).1.state = GState.LEVEL_COMPLETE ↔
      ((Engine.update qPrim cengEmpty (1/60) rng0).1.fragments ≠ [] ∧
       (∀ f ∈ (Engine.update qPrim cengEmpty (1/60) rng0).1.fragments,
         f.corruptionLevel < 3/10) ∧
       ∀ i < (Engine.update qPrim cengEmpty (1/60) rng0).1.fragments.length,
         i ∈ dfsLoop
           (updateConnections qPrim (Engine.update qPrim cengEmpty (1/60) rng0).1.fragments)
           (2 * (updateConnections qPrim (Engine.update qPrim cengEmpty (1/60) rng0).1.fragments).length + 1)
           {0} [0])) ∧
    ((Engine.update qPrim cengEmpty (1/60) rng0).1.connections =
      updateConnections qPrim (Engine.update qPrim cengEmpty (1/60) rng0).1.fragments) ∧
    ((Engine.update qPrim cengEmpty (1/60) rng0).1.state = GState.LEVEL_COMPLETE →
      GEvent.levelComplete cengEmpty.currentLevel ∈
        (Engine.update qPrim cengEmpty (1/60) rng0).2.2) ∧
    ((Engine.update qPrim cengEmpty (1/60) rng0).1.state ≠ GState.LEVEL_COMPLETE →
      (Engine.update qPrim cengEmpty (1/60) rng0).1.state = GState.PLAYING ∧
      GEvent.levelComplete cengEmpty.currentLevel ∉
        (Engine.update qPrim cengEmpty (1/60) rng0).2.2) :=
  level_completion_spec qPrim cengEmpty (1/60) rng0 rfl
